import Mathlib

/-!
# Verification of the `impatience` save-file loader (`loader.go`)

This file gives a shallow embedding of the save-game loading and validation
pipeline of the repository: the `LoadFile` format dispatch, the `Register`
card accumulator (`AddCard` / `AddCards`) and the `Game.Import` walk over a
decoded `SaveData` document.  Go maps are embedded as association lists
(with an explicit iteration order where the source iterates over a map),
mutation is embedded as explicit state passing, and Go `int` values that can
be negative are embedded as `Int`.

The card codec and the container types (`Card`, `CardSuit`, `CardRank`,
`ParseCard`, `SuitName`, `RankName`, `Game`) are not part of the repository
sources available here; they are modelled from the specification and are
marked as such.
-/

set_option autoImplicit false
set_option maxRecDepth 100000

/-- Modelled from the spec: the four suits of a standard deck
(`CardSuit` with constants `SPADES`, `CLUBS`, `HEARTS`, `DIAMONDS`). -/
inductive CardSuit where
  | SPADES
  | CLUBS
  | HEARTS
  | DIAMONDS
deriving DecidableEq, Repr

/-- Modelled from the spec: the thirteen ranks of a standard deck. -/
inductive CardRank where
  | ACE
  | TWO
  | THREE
  | FOUR
  | FIVE
  | SIX
  | SEVEN
  | EIGHT
  | NINE
  | TEN
  | JACK
  | QUEEN
  | KING
deriving DecidableEq, Repr

/-- Modelled from the spec: an immutable card value with a suit, a rank and a
canonical identity string (`Card.Id` embeds the Go method `card.Id()`).
A card whose identity contains the reserved marker is a wildcard. -/
structure Card where
  Suit : CardSuit
  Rank : CardRank
  Id : String
deriving DecidableEq, Repr

/-- Modelled from the spec: a textual card code as consumed by the external
`CardCodec`.  The codec either produces a card value or fails with a parse
error, so a code is embedded by its parse outcome. -/
inductive Code where
  | valid (card : Card)
  | invalid (msg : String)
deriving DecidableEq, Repr

/-- Modelled from the spec: `ParseCard` converts a textual code into a `Card`
or propagates a parse error on malformed input. -/
def ParseCard (code : Code) : Except String Card :=
  match code with
  | .valid card => .ok card
  | .invalid msg => .error msg

/-- Modelled from the spec: `strings.Contains(id, "?")`, the wildcard-marker
test on a card identity. -/
def containsWildcard (id : String) : Bool :=
  id.data.contains '?'

/-- Modelled from the spec: `SuitName` yields the canonical lower-case suit
name (the same names are the canonical foundation keys). -/
def SuitName (suit : CardSuit) : String :=
  match suit with
  | .SPADES => "spades"
  | .CLUBS => "clubs"
  | .HEARTS => "hearts"
  | .DIAMONDS => "diamonds"

/-- Modelled from the spec: `RankName` yields a printable rank name. -/
def RankName (rank : CardRank) : String :=
  match rank with
  | .ACE => "ace"
  | .TWO => "two"
  | .THREE => "three"
  | .FOUR => "four"
  | .FIVE => "five"
  | .SIX => "six"
  | .SEVEN => "seven"
  | .EIGHT => "eight"
  | .NINE => "nine"
  | .TEN => "ten"
  | .JACK => "jack"
  | .QUEEN => "queen"
  | .KING => "king"

/-- A Go map embedded as an association list: read access. -/
def mapGet {α β : Type} [DecidableEq α] (m : List (α × β)) (k : α) : Option β :=
  match m with
  | [] => none
  | (k2, v) :: rest => if k = k2 then some v else mapGet rest k

/-- A Go map embedded as an association list: write access (replace the
binding for `k`, or add one). -/
def mapSet {α β : Type} [DecidableEq α] (m : List (α × β)) (k : α) (v : β) : List (α × β) :=
  match m with
  | [] => [(k, v)]
  | (k2, v2) :: rest => if k = k2 then (k2, v) :: rest else (k2, v2) :: mapSet rest k v

/-- Equality of `Except` results is decidable when both component types
have decidable equality (used to evaluate concrete loader runs). -/
instance {ε α : Type} [DecidableEq ε] [DecidableEq α] : DecidableEq (Except ε α) := fun
  | .ok a, .ok b =>
    match decEq a b with
    | isTrue h => isTrue (by rw [h])
    | isFalse h => isFalse (by intro hh; cases hh; exact h rfl)
  | .ok _, .error _ => isFalse (by intro hh; cases hh)
  | .error _, .ok _ => isFalse (by intro hh; cases hh)
  | .error e, .error f =>
    match decEq e f with
    | isTrue h => isTrue (by rw [h])
    | isFalse h => isFalse (by intro hh; cases hh; exact h rfl)

/-- The `Stock` section of `SaveData` (`loader.go:16-21`).  Card codes are
embedded as `Code` values (see `Code`). -/
structure StockData where
  Limit : Int
  Loop : Int
  Pos : Int
  Stack : List Code
deriving DecidableEq, Repr

/-- The `Tableau` section of `SaveData` (`loader.go:22-25`). -/
structure TableauData where
  Stacks : List (List Code)
  Facedown : List Int
deriving DecidableEq, Repr

/-- The struct `SaveData` (`loader.go:15-27`).  The `Foundations` Go map is embedded as
an association list recording the (unspecified) iteration order that a `range`
over the map would produce. -/
structure SaveData where
  Stock : StockData
  Tableau : TableauData
  Foundations : List (String × List Code)
deriving DecidableEq, Repr

/-- The zero value of `SaveData`, as produced by `new(SaveData)` in Go
(`loader.go:30`). -/
def zeroSaveData : SaveData :=
  { Stock := { Limit := 0, Loop := 0, Pos := 0, Stack := [] }
  , Tableau := { Stacks := [], Facedown := [] }
  , Foundations := [] }

/-- The function `LoadFile` (`loader.go:29-59`) after a successful read of the file
contents: the extension switch selects the decoder, and `unmarsherr` stays
`nil` when no case matches.  The two decoders are abstracted as functions
from the zero-valued document to a decode outcome. -/
def LoadFile (ext : String)
    (unmarshalJson unmarshalToml : SaveData → Except String SaveData) :
    Except String SaveData :=
  let save := zeroSaveData
  if ext = ".json" then unmarshalJson save
  else if ext = ".toml" then unmarshalToml save
  else .ok save

/-- The distinguishable error outcomes of the loader (`Go` returns plain
`error` values; each construction site in `loader.go` gets one constructor,
carrying the data interpolated into its message). -/
inductive ImportErr where
  | parse (msg : String)
  | duplicate
  | overflow (msgs : List String)
  | tooManyStacks (n : Nat)
  | lengthMismatch
  | topFacedown (i : Nat) (len : Nat) (fd : Int)
  | facedownOverflow (total : Int)
  | unrecognizedFoundation (key : String)
  | suitMismatch (key : String) (code : Code) (i : Nat)
  | incompleteDeck (total : Nat)
deriving DecidableEq, Repr

/-- The struct `Register` (`loader.go:140-145`): the per-import accumulator.  The Go
maps are embedded as a membership list (`Cards`) and association lists
(`Suits`, `Ranks`). -/
structure Register where
  Cards : List String
  Suits : List (CardSuit × Nat)
  Ranks : List (CardRank × Nat)
  Total : Nat
deriving DecidableEq, Repr

/-- The constructor `NewRegister` (`loader.go:147-153`). -/
def NewRegister : Register :=
  { Cards := [], Suits := [], Ranks := [], Total := 0 }

/-- The counting second half of `Register.AddCard` (`loader.go:171-220`):
tentatively count the card against the total, the suit count and the rank
count, collecting overflow messages.  Note that on overflow only the *local*
copies `suitTotal` and `rankTotal` are decremented in the source
(`loader.go:194,209`); the maps keep the incremented values, while `r.Total`
is decremented on the register itself (`loader.go:181`). -/
def addCardCounts (r : Register) (card : Card) : Except ImportErr Card × Register :=
  let total2 := if 52 < r.Total + 1 then r.Total else r.Total + 1
  let invalids1 : List String := if 52 < r.Total + 1 then ["too many cards."] else []
  let suitTotal := match mapGet r.Suits card.Suit with
    | some v => v + 1
    | none => 0
  let suits2 := match mapGet r.Suits card.Suit with
    | some v => mapSet r.Suits card.Suit (v + 1)
    | none => mapSet r.Suits card.Suit 1
  let invalids2 := if 13 < suitTotal then
      invalids1 ++ ["too many" ++ SuitName card.Suit ++ "cards"]
    else invalids1
  let rankTotal := match mapGet r.Ranks card.Rank with
    | some v => v + 1
    | none => 0
  let ranks2 := match mapGet r.Ranks card.Rank with
    | some v => mapSet r.Ranks card.Rank (v + 1)
    | none => mapSet r.Ranks card.Rank 1
  let invalids3 := if 4 < rankTotal then
      invalids2 ++ ["too many" ++ RankName card.Rank ++ "cards"]
    else invalids2
  let rr : Register := { Cards := r.Cards, Suits := suits2, Ranks := ranks2, Total := total2 }
  (if 0 < invalids3.length then .error (.overflow invalids3) else .ok card, rr)

/-- The method `Register.AddCard` (`loader.go:155-221`): parse the code, reject or
record a non-wildcard duplicate identity, then count the card.  The register
is returned alongside the result because in Go the receiver is mutated even
on a failing call. -/
def Register.AddCard (r : Register) (code : Code) : Except ImportErr Card × Register :=
  match ParseCard code with
  | .error e => (.error (.parse e), r)
  | .ok card =>
    if containsWildcard card.Id then
      addCardCounts r card
    else if card.Id ∈ r.Cards then
      (.error .duplicate, r)
    else
      addCardCounts { r with Cards := card.Id :: r.Cards } card

/-- The method `Register.AddCards` (`loader.go:223-234`): register codes in order,
stopping at the first failure (accumulated cards of this call are discarded
on failure, register mutations persist). -/
def Register.AddCards (r : Register) (codes : List Code) : Except ImportErr (List Card) × Register :=
  match codes with
  | [] => (.ok [], r)
  | code :: rest =>
    match Register.AddCard r code with
    | (.error e, r2) => (.error e, r2)
    | (.ok card, r2) =>
      match Register.AddCards r2 rest with
      | (.error e, r3) => (.error e, r3)
      | (.ok cards, r3) => (.ok (card :: cards), r3)

/-- Modelled from the spec: the stock zone of the mutation target `Game`. -/
structure GameStock where
  Limit : Int
  Loop : Int
  Pos : Int
  Stack : List Card
deriving DecidableEq, Repr

/-- Modelled from the spec: the tableau zone of `Game`, a fixed capacity of
7 stacks with a parallel facedown count per stack. -/
structure GameTableau where
  Stacks : List (List Card)
  Facedown : List Int
deriving DecidableEq, Repr

/-- Modelled from the spec: the mutation target of `Import`, holding the
stock, the tableau and a map from suit to foundation pile (embedded as an
association list). -/
structure Game where
  Stock : GameStock
  Tableau : GameTableau
  Foundations : List (CardSuit × List Card)
deriving DecidableEq, Repr

/-- A `Game` before any import: zero scalars, 7 empty tableau slots, no
foundation bindings. -/
def emptyGame : Game :=
  { Stock := { Limit := 0, Loop := 0, Pos := 0, Stack := [] }
  , Tableau := { Stacks := List.replicate 7 [], Facedown := List.replicate 7 0 }
  , Foundations := [] }

/-- Reading `game.Foundations[suit]` as Go does: a missing key yields the
zero value (an empty pile). -/
def foundationOf (g : Game) (suit : CardSuit) : List Card :=
  (mapGet g.Foundations suit).getD []

/-- The tableau loop of `Game.Import` (`loader.go:85-97`): for each stack,
add its facedown count to the running total, reject a stack whose top card
would be facedown, register the stack's codes and assign the cards and the
facedown count into tableau slot `i`.  The two lists always have equal
length when called from `Game.Import` (checked at `loader.go:82`); the
unreachable mismatch branch returns without processing. -/
def importTableauLoop (r : Register) (g : Game) (stks : List (List Code))
    (fds : List Int) (i : Nat) (fdTotal : Int) :
    Except ImportErr Unit × Register × Game × Int :=
  match stks, fds with
  | [], _ => (.ok (), r, g, fdTotal)
  | _ :: _, [] => (.ok (), r, g, fdTotal)
  | codes :: restS, fd :: restF =>
    let fdTotal2 := fdTotal + fd
    if (codes.length : Int) ≤ fd then
      (.error (.topFacedown i codes.length fd), r, g, fdTotal2)
    else
      match Register.AddCards r codes with
      | (.error e, r2) => (.error e, r2, g, fdTotal2)
      | (.ok stack, r2) =>
        let g2 : Game :=
          { g with Tableau :=
            { Stacks := g.Tableau.Stacks.set i stack
            , Facedown := g.Tableau.Facedown.set i fd } }
        importTableauLoop r2 g2 restS restF (i + 1) fdTotal2

/-- The foundation-key switch of `Game.Import` (`loader.go:104-116`). -/
def suitOfKey (key : String) : Option CardSuit :=
  if key = "spades" then some .SPADES
  else if key = "clubs" then some .CLUBS
  else if key = "hearts" then some .HEARTS
  else if key = "diamonds" then some .DIAMONDS
  else none

/-- The inner foundation loop of `Game.Import` (`loader.go:118-130`):
register each code, and require the card's suit to match the foundation's
suit; the partially built pile is discarded on failure but register
mutations persist. -/
def foundationStack (r : Register) (codes : List Code) (suit : CardSuit)
    (key : String) (i : Nat) : Except ImportErr (List Card) × Register :=
  match codes with
  | [] => (.ok [], r)
  | code :: rest =>
    match Register.AddCard r code with
    | (.error e, r2) => (.error e, r2)
    | (.ok card, r2) =>
      if card.Suit = suit then
        match foundationStack r2 rest suit key (i + 1) with
        | (.error e, r3) => (.error e, r3)
        | (.ok stack, r3) => (.ok (card :: stack), r3)
      else
        (.error (.suitMismatch key code i), r2)

/-- The foundations loop of `Game.Import` (`loader.go:103-132`), iterating
the `Foundations` map in the given iteration order. -/
def importFoundations (r : Register) (g : Game) (fs : List (String × List Code)) :
    Except ImportErr Unit × Register × Game :=
  match fs with
  | [] => (.ok (), r, g)
  | (key, codes) :: rest =>
    match suitOfKey key with
    | none => (.error (.unrecognizedFoundation key), r, g)
    | some suit =>
      match foundationStack r codes suit key 0 with
      | (.error e, r2) => (.error e, r2, g)
      | (.ok stack, r2) =>
        importFoundations r2 { g with Foundations := mapSet g.Foundations suit stack } rest

/-- The method `Game.Import` (`loader.go:63-138`): copy the trusted stock scalars,
register and fill the stock, the tableau (with the stack-count, length and
facedown checks) and the foundations, and finally require a register total
of exactly 52.  The possibly partially-mutated game is returned alongside
the result, as in Go. -/
def Game.Import (game : Game) (save : SaveData) : Except ImportErr Unit × Game :=
  let r := NewRegister
  let game :=
    { game with Stock :=
      { game.Stock with Limit := save.Stock.Limit, Loop := save.Stock.Loop, Pos := save.Stock.Pos } }
  match Register.AddCards r save.Stock.Stack with
  | (.error e, _) => (.error e, game)
  | (.ok stack, r) =>
    let game := { game with Stock := { game.Stock with Stack := stack } }
    let tbSize := save.Tableau.Stacks.length
    if 7 < tbSize then
      (.error (.tooManyStacks tbSize), game)
    else if save.Tableau.Facedown.length ≠ tbSize then
      (.error .lengthMismatch, game)
    else
      match importTableauLoop r game save.Tableau.Stacks save.Tableau.Facedown 0 0 with
      | (.error e, _, game2, _) => (.error e, game2)
      | (.ok _, r2, game2, fdTotal) =>
        if 21 < fdTotal then
          (.error (.facedownOverflow fdTotal), game2)
        else
          match importFoundations r2 game2 save.Foundations with
          | (.error e, _, game3) => (.error e, game3)
          | (.ok _, r3, game3) =>
            if r3.Total ≠ 52 then
              (.error (.incompleteDeck r3.Total), game3)
            else
              (.ok (), game3)

/-- The identity that `Register.AddCard` tracks for duplicate detection: the
parsed card's identity when the code parses and is not wildcard-marked. -/
def nonwildId (code : Code) : Option String :=
  match ParseCard code with
  | .error _ => none
  | .ok card => if containsWildcard card.Id then none else some card.Id

/-- The non-wildcard identities of a list of codes, in order. -/
def nwIds (codes : List Code) : List String :=
  codes.filterMap nonwildId

/-- Every card code of a document, in the order `Game.Import` registers
them: stock, then the tableau stacks, then the foundation piles in the
map's iteration order. -/
def allCodes (save : SaveData) : List Code :=
  save.Stock.Stack ++ save.Tableau.Stacks.flatten ++ (save.Foundations.map Prod.snd).flatten

/-- The per-stack facedown checks of the tableau loop, as one boolean:
every facedown count is strictly below its stack's length. -/
def fdChecksOk : List (List Code) → List Int → Bool
  | [], _ => true
  | _ :: _, [] => true
  | codes :: restS, fd :: restF =>
    (decide (fd < (codes.length : Int))) && fdChecksOk restS restF

/-- The card list of a successful registration result (empty on failure). -/
def okCards (res : Except ImportErr (List Card)) : List Card :=
  match res with
  | .ok cards => cards
  | .error _ => []

/-- A short unique identity for each concrete (non-wildcard) card used in
the concrete documents below. -/
def stdId (suit : CardSuit) (rank : CardRank) : String :=
  (match suit with
   | .SPADES => "s"
   | .CLUBS => "c"
   | .HEARTS => "h"
   | .DIAMONDS => "d") ++
  (match rank with
   | .ACE => "1"
   | .TWO => "2"
   | .THREE => "3"
   | .FOUR => "4"
   | .FIVE => "5"
   | .SIX => "6"
   | .SEVEN => "7"
   | .EIGHT => "8"
   | .NINE => "9"
   | .TEN => "10"
   | .JACK => "11"
   | .QUEEN => "12"
   | .KING => "13")

/-- A concrete non-wildcard card. -/
def stdCard (suit : CardSuit) (rank : CardRank) : Card :=
  { Suit := suit, Rank := rank, Id := stdId suit rank }

/-- A concrete code that parses to `stdCard suit rank`. -/
def stdCode (suit : CardSuit) (rank : CardRank) : Code :=
  .valid (stdCard suit rank)

/-- A concrete wildcard code: its identity is the bare wildcard marker, so
it is exempt from duplicate detection. -/
def wildCode (suit : CardSuit) (rank : CardRank) : Code :=
  .valid { Suit := suit, Rank := rank, Id := "?" }

def allSuits : List CardSuit :=
  [.SPADES, .CLUBS, .HEARTS, .DIAMONDS]

def allRanks : List CardRank :=
  [.ACE, .TWO, .THREE, .FOUR, .FIVE, .SIX, .SEVEN, .EIGHT, .NINE, .TEN, .JACK, .QUEEN, .KING]

/-- The 52 distinct non-wildcard codes of a standard deck, suit-major. -/
def stdDeck : List Code :=
  (allSuits.map (fun s => allRanks.map (fun rk => stdCode s rk))).flatten

/-- The 52 cards the codes of `stdDeck` parse to, in the same order. -/
def stdCards : List Card :=
  (allSuits.map (fun s => allRanks.map (fun rk => stdCard s rk))).flatten

/-- The 52 distinct wildcard codes obtained by marking every standard card
as a wildcard: same suit and rank distribution, identity `"?"`. -/
def wildDeck : List Code :=
  (allSuits.map (fun s => allRanks.map (fun rk => wildCode s rk))).flatten


/-- The register reached by a sequence of individual `AddCard` calls
(continuing past failures, as a caller retrying single cards would). -/
def regAfter (codes : List Code) : Register :=
  codes.foldl (fun r code => (Register.AddCard r code).2) NewRegister

/-- Thirteen wildcard spades of distinct ranks: they all register
successfully on a fresh register. -/
def thirteenWildSpades : List Code :=
  allRanks.map (wildCode .SPADES)

/-- A fourteenth wildcard spade: registering it overflows the spade count. -/
def extraWildSpade : Code :=
  wildCode .SPADES .ACE

/-- A wildcard heart, registered after the failed fourteenth spade. -/
def lateWildHeart : Code :=
  wildCode .HEARTS .ACE

/-- A document whose foundations map holds an unrecognized key and a
suit-mismatched pile, listed in one iteration order. -/
def c4docA : SaveData :=
  { Stock := { Limit := 0, Loop := 0, Pos := 0, Stack := [] }
  , Tableau := { Stacks := [], Facedown := [] }
  , Foundations := [("joker", []), ("spades", [stdCode .CLUBS .ACE])] }

/-- The same foundations map as `c4docA`, listed in the other iteration
order. -/
def c4docB : SaveData :=
  { Stock := { Limit := 0, Loop := 0, Pos := 0, Stack := [] }
  , Tableau := { Stacks := [], Facedown := [] }
  , Foundations := [("spades", [stdCode .CLUBS .ACE]), ("joker", [])] }

/-- A document with a duplicated non-wildcard code in the tableau and eight
tableau stacks. -/
def c6stackDoc : SaveData :=
  { Stock := { Limit := 0, Loop := 0, Pos := 0, Stack := [] }
  , Tableau :=
    { Stacks := [[stdCode .SPADES .ACE], [stdCode .SPADES .ACE], [], [], [], [], [], []]
    , Facedown := List.replicate 8 0 }
  , Foundations := [] }

/-- A document with a duplicated non-wildcard code in the stock. -/
def c6stockDoc : SaveData :=
  { Stock := { Limit := 0, Loop := 0, Pos := 0, Stack := [stdCode .SPADES .ACE, stdCode .SPADES .ACE] }
  , Tableau := { Stacks := [], Facedown := [] }
  , Foundations := [] }

/-- Six five-card wildcard tableau stacks (30 cards in all). -/
def sixWildStacks : List (List Code) :=
  [ wildDeck.take 5
  , (wildDeck.drop 5).take 5
  , (wildDeck.drop 10).take 5
  , (wildDeck.drop 15).take 5
  , (wildDeck.drop 20).take 5
  , (wildDeck.drop 25).take 5 ]

/-- Facedown counts for `sixWildStacks`: each below its stack's length, the
sum 24 above the 21-card limit. -/
def sixFds : List Int :=
  [4, 4, 4, 4, 4, 4]

/-- Facedown-overflowing tableau plus an unparseable stock code. -/
def c7parseDoc : SaveData :=
  { Stock := { Limit := 0, Loop := 0, Pos := 0, Stack := [Code.invalid "zzz"] }
  , Tableau := { Stacks := sixWildStacks, Facedown := sixFds }
  , Foundations := [] }

/-- Facedown-overflowing tableau with an empty, error-free stock. -/
def c7cleanDoc : SaveData :=
  { Stock := { Limit := 0, Loop := 0, Pos := 0, Stack := [] }
  , Tableau := { Stacks := sixWildStacks, Facedown := sixFds }
  , Foundations := [] }

def c7regRes : Except ImportErr (List Card) × Register :=
  Register.AddCards NewRegister sixWildStacks.flatten

/-- The concrete scenario of the spec: 24 unique stock codes and seven
four-card tableau stacks with facedown count 3 each. -/
def c8stockCodes : List Code :=
  stdDeck.take 24

def c8stackCodes : List (List Code) :=
  [ (stdDeck.drop 24).take 4
  , (stdDeck.drop 28).take 4
  , (stdDeck.drop 32).take 4
  , (stdDeck.drop 36).take 4
  , (stdDeck.drop 40).take 4
  , (stdDeck.drop 44).take 4
  , (stdDeck.drop 48).take 4 ]

def c8cardStacks : List (List Card) :=
  [ (stdCards.drop 24).take 4
  , (stdCards.drop 28).take 4
  , (stdCards.drop 32).take 4
  , (stdCards.drop 36).take 4
  , (stdCards.drop 40).take 4
  , (stdCards.drop 44).take 4
  , (stdCards.drop 48).take 4 ]

def c8doc : SaveData :=
  { Stock := { Limit := 0, Loop := 0, Pos := 0, Stack := c8stockCodes }
  , Tableau := { Stacks := c8stackCodes, Facedown := List.replicate 7 3 }
  , Foundations := [] }

/-- A 51-card document: the whole standard deck minus one card, all in the
stock. -/
def c9doc : SaveData :=
  { Stock := { Limit := 0, Loop := 0, Pos := 0, Stack := stdDeck.take 51 }
  , Tableau := { Stacks := [], Facedown := [] }
  , Foundations := [] }

def c9stockRes : Except ImportErr (List Card) × Register :=
  Register.AddCards NewRegister c9doc.Stock.Stack

/-- A document with a negative facedown count on an empty stack: the -1
offsets a facedown count of 22 on the other stack, keeping the running
total at the limit. -/
def c10doc : SaveData :=
  { Stock := { Limit := 0, Loop := 0, Pos := 0, Stack := wildDeck.take 29 }
  , Tableau := { Stacks := [[], wildDeck.drop 29], Facedown := [-1, 22] }
  , Foundations := [] }

/-- C1: `LoadFile` on a readable file whose extension is neither `.json` nor
`.toml` does not fail: the decode switch falls through, and the zero-valued
document is returned with no error (the claimed hard failure does not
happen).  Importing that empty document then fails downstream with the
confusing `IncompleteDeckError` reporting 0 cards. -/
theorem impatience_C1 :
    (∀ uj ut, LoadFile ".sav" uj ut = .ok zeroSaveData) ∧
    (Game.Import emptyGame zeroSaveData).1 = .error (.incompleteDeck 0) :=
  ⟨fun _ _ => rfl, by decide⟩

/-- C2: the registry invariant fails after a successful registration.  After
thirteen wildcard spades succeed and a fourteenth fails with a suit
overflow, the spade count is stuck at 14; a subsequent wildcard heart then
registers successfully while the register still records 14 spades, so a
suit count exceeds 13 after a successful `AddCard` call. -/
theorem impatience_C2 :
    (Register.AddCard (regAfter (thirteenWildSpades ++ [extraWildSpade])) lateWildHeart).1 =
      .ok { Suit := .HEARTS, Rank := .ACE, Id := "?" } ∧
    mapGet (Register.AddCard (regAfter (thirteenWildSpades ++ [extraWildSpade])) lateWildHeart).2.Suits
      .SPADES = some 14 := by
  decide

/-- C3: the overflow rollback does not happen as claimed.  Before the
failing call the register holds 13 spades, total 13, one ace; the
fourteenth wildcard spade fails with `OverflowError`, yet afterwards the
suit count reads 14 (the source decrements only a local copy), the rank
count reads 2, and even the total reads 14 (it is only rolled back when the
total itself overflows, which it did not here). -/
theorem impatience_C3 :
    (regAfter thirteenWildSpades).Total = 13 ∧
    mapGet (regAfter thirteenWildSpades).Suits .SPADES = some 13 ∧
    mapGet (regAfter thirteenWildSpades).Ranks .ACE = some 1 ∧
    (Register.AddCard (regAfter thirteenWildSpades) extraWildSpade).1 =
      .error (.overflow ["too manyspadescards"]) ∧
    (Register.AddCard (regAfter thirteenWildSpades) extraWildSpade).2.Total = 14 ∧
    mapGet (Register.AddCard (regAfter thirteenWildSpades) extraWildSpade).2.Suits .SPADES = some 14 ∧
    mapGet (Register.AddCard (regAfter thirteenWildSpades) extraWildSpade).2.Ranks .ACE = some 2 := by
  decide

/-- C4: `Import` walks the foundations in the input map's iteration order,
not in the fixed canonical suit order, and the outcome depends on that
order: the same foundations map presented in two iteration orders yields
`UnrecognizedFoundationError` in one run and `SuitMismatchError` in the
other, so `Import` is not deterministic in the claimed sense. -/
theorem impatience_C4 :
    c4docA.Stock = c4docB.Stock ∧
    c4docA.Tableau = c4docB.Tableau ∧
    c4docA.Foundations.Perm c4docB.Foundations ∧
    (Game.Import emptyGame c4docA).1 = .error (.unrecognizedFoundation "joker") ∧
    (Game.Import emptyGame c4docB).1 = .error (.suitMismatch "spades" (stdCode .CLUBS .ACE) 0) ∧
    (Game.Import emptyGame c4docA).1 ≠ (Game.Import emptyGame c4docB).1 := by
  refine ⟨rfl, rfl, ?_, by decide, by decide, by decide⟩
  exact List.Perm.swap _ _ _

/-- C6 counterexample: a document in which a non-wildcard code appears twice
(in the tableau) but whose import fails with the stack-count
`StructuralError`, not with `DuplicateCardError` — the stack-count check
runs before the duplicate is ever reached. -/
theorem impatience_C6_counter :
    nonwildId (stdCode .SPADES .ACE) = some "s1" ∧
    2 ≤ (allCodes c6stackDoc).count (stdCode .SPADES .ACE) ∧
    (Game.Import emptyGame c6stackDoc).1 = .error (.tooManyStacks 8) ∧
    (Game.Import emptyGame c6stackDoc).1 ≠ .error .duplicate := by
  decide

/-- C7 counterexample: a document whose tableau passes all per-stack checks
and whose facedown counts sum to 24 > 21, yet whose import fails with the
stock's `ParseError` rather than the facedown-overflow `StructuralError` —
the claim as stated ignores earlier registration failures. -/
theorem impatience_C7_counter :
    c7parseDoc.Tableau.Stacks.length ≤ 7 ∧
    c7parseDoc.Tableau.Facedown.length = c7parseDoc.Tableau.Stacks.length ∧
    fdChecksOk c7parseDoc.Tableau.Stacks c7parseDoc.Tableau.Facedown = true ∧
    21 < c7parseDoc.Tableau.Facedown.sum ∧
    (Game.Import emptyGame c7parseDoc).1 = .error (.parse "zzz") ∧
    (Game.Import emptyGame c7parseDoc).1 ≠ .error (.facedownOverflow c7parseDoc.Tableau.Facedown.sum) := by
  decide

/-- C8: the spec's concrete scenario.  Importing the document with 24 unique
stock codes, seven four-card tableau stacks with facedown count 3 each and
an empty foundations map succeeds; the game then holds those 24 stock
cards, the seven stacks of four with facedown 3 each, and every foundation
is an empty sequence. -/
theorem impatience_C8 :
    (Game.Import emptyGame c8doc).1 = .ok () ∧
    (Game.Import emptyGame c8doc).2.Stock.Stack = stdCards.take 24 ∧
    (Game.Import emptyGame c8doc).2.Tableau.Stacks = c8cardStacks ∧
    (Game.Import emptyGame c8doc).2.Tableau.Facedown = List.replicate 7 3 ∧
    foundationOf (Game.Import emptyGame c8doc).2 .SPADES = [] ∧
    foundationOf (Game.Import emptyGame c8doc).2 .CLUBS = [] ∧
    foundationOf (Game.Import emptyGame c8doc).2 .HEARTS = [] ∧
    foundationOf (Game.Import emptyGame c8doc).2 .DIAMONDS = [] := by
  decide

/-- The counting phase of `AddCard` never touches the seen-identity set. -/
theorem addCardCounts_snd_Cards (r : Register) (card : Card) :
    ((addCardCounts r card).2).Cards = r.Cards := rfl

/-- The counting phase of `AddCard` either accepts the parsed card or fails
with an overflow error. -/
theorem addCardCounts_fst (r : Register) (card : Card) :
    (addCardCounts r card).1 = .ok card ∨
    ∃ msgs, (addCardCounts r card).1 = .error (.overflow msgs) := by
  unfold addCardCounts
  dsimp only
  repeat' split
  all_goals first
  | exact Or.inl rfl
  | exact Or.inr ⟨_, rfl⟩

/-- Case lemma: `AddCard` on an unparseable code: propagate the parse error, register
untouched. -/
theorem AddCard_parse_err (r : Register) (code : Code) (e : String)
    (hp : ParseCard code = .error e) :
    Register.AddCard r code = (.error (.parse e), r) := by
  unfold Register.AddCard
  rw [hp]

/-- Case lemma: `AddCard` on a wildcard code goes straight to the counting phase. -/
theorem AddCard_wild (r : Register) (code : Code) (card : Card)
    (hp : ParseCard code = .ok card) (hw : containsWildcard card.Id = true) :
    Register.AddCard r code = addCardCounts r card := by
  unfold Register.AddCard
  rw [hp]
  simp [hw]

/-- Case lemma: `AddCard` on a non-wildcard code whose identity was already seen fails
with `DuplicateCardError`, register untouched. -/
theorem AddCard_dup_of_mem (r : Register) (code : Code) (card : Card)
    (hp : ParseCard code = .ok card) (hw : containsWildcard card.Id = false)
    (hm : card.Id ∈ r.Cards) :
    Register.AddCard r code = (.error .duplicate, r) := by
  unfold Register.AddCard
  rw [hp]
  simp [hw, hm]

/-- Case lemma: `AddCard` on an unseen non-wildcard code inserts the identity into the
seen set before the counting phase. -/
theorem AddCard_insert (r : Register) (code : Code) (card : Card)
    (hp : ParseCard code = .ok card) (hw : containsWildcard card.Id = false)
    (hm : card.Id ∉ r.Cards) :
    Register.AddCard r code = addCardCounts { r with Cards := card.Id :: r.Cards } card := by
  unfold Register.AddCard
  rw [hp]
  simp [hw, hm]

/-- C5: when `AddCard` is called on a non-wildcard code whose identity is
not yet seen and the call fails, the failure can only be an overflow, and
the identity insertion is not rolled back: resubmitting the same code to
the resulting register fails with `DuplicateCardError`. -/
theorem impatience_C5 (r : Register) (code : Code) (card : Card) (e : ImportErr)
    (hp : ParseCard code = .ok card)
    (hw : containsWildcard card.Id = false)
    (hs : card.Id ∉ r.Cards)
    (hf : (Register.AddCard r code).1 = .error e) :
    (∃ msgs, e = .overflow msgs) ∧
    (Register.AddCard (Register.AddCard r code).2 code).1 = .error .duplicate := by
  have hAdd := AddCard_insert r code card hp hw hs
  have hmem : card.Id ∈ (Register.AddCard r code).2.Cards := by
    rw [hAdd, addCardCounts_snd_Cards]
    exact List.mem_cons_self _ _
  constructor
  · rw [hAdd] at hf
    rcases addCardCounts_fst { r with Cards := card.Id :: r.Cards } card with hok | ⟨msgs, herr⟩
    · rw [hok] at hf
      cases hf
    · rw [herr] at hf
      cases hf
      exact ⟨msgs, rfl⟩
  · rw [AddCard_dup_of_mem (Register.AddCard r code).2 code card hp hw hmem]

/-- A register one spade short of the suit limit, with an unseen spade code:
registering it fails purely by suit overflow. -/
def c5reg : Register :=
  { Cards := [], Suits := [(.SPADES, 13)], Ranks := [], Total := 13 }

theorem impatience_C5_witness :
    (Register.AddCard (Register.AddCard c5reg (stdCode .SPADES .ACE)).2 (stdCode .SPADES .ACE)).1 =
      .error .duplicate :=
  (impatience_C5 c5reg (stdCode .SPADES .ACE) (stdCard .SPADES .ACE)
    (.overflow ["too manyspadescards"])
    (by decide) (by decide) (by decide) (by decide)).2

/-- C10: the tableau loop performs no non-negativity check on facedown
values.  Whenever a facedown value (negative ones included) is strictly
below the stack's length it passes the top-card check, is added to the
running facedown total and is assigned verbatim to the stack's slot; and
a concrete import with facedown counts -1 (on an empty stack) and 22 — the
-1 reducing the running total to the 21 limit — succeeds and stores -1 and
22 verbatim in the game. -/
theorem impatience_C10 :
    (∀ (fd : Int) (codes : List Code) (r : Register) (g : Game)
       (restS : List (List Code)) (restF : List Int) (i : Nat) (fdT : Int),
       fd < (codes.length : Int) →
       importTableauLoop r g (codes :: restS) (fd :: restF) i fdT =
         (match Register.AddCards r codes with
          | (.error e, r2) => (.error e, r2, g, fdT + fd)
          | (.ok stack, r2) =>
            importTableauLoop r2
              { g with Tableau :=
                { Stacks := g.Tableau.Stacks.set i stack
                , Facedown := g.Tableau.Facedown.set i fd } }
              restS restF (i + 1) (fdT + fd))) ∧
    (Game.Import emptyGame c10doc).1 = .ok () ∧
    (Game.Import emptyGame c10doc).2.Tableau.Facedown = [-1, 22, 0, 0, 0, 0, 0] := by
  refine ⟨?_, by decide, by decide⟩
  intro fd codes r g restS restF i fdT h
  rw [importTableauLoop]
  dsimp only
  rw [if_neg (not_le.mpr h)]

theorem impatience_C10_witness :
    ((-1 : Int) < (([] : List Code).length : Int)) ∧
    importTableauLoop NewRegister emptyGame ([] :: []) ((-1) :: []) 0 0 =
      (match Register.AddCards NewRegister [] with
       | (.error e, r2) => (.error e, r2, emptyGame, 0 + -1)
       | (.ok stack, r2) =>
         importTableauLoop r2
           { emptyGame with Tableau :=
             { Stacks := emptyGame.Tableau.Stacks.set 0 stack
             , Facedown := emptyGame.Tableau.Facedown.set 0 (-1) } }
           [] [] (0 + 1) (0 + -1)) :=
  ⟨by decide, impatience_C10.1 (-1) [] NewRegister emptyGame [] [] 0 0 (by decide)⟩

/-- Registering a concatenation is registering the two halves in sequence:
the first failure wins, register mutations thread through. -/
theorem AddCards_append (xs ys : List Code) : ∀ r : Register,
    Register.AddCards r (xs ++ ys) =
      (match Register.AddCards r xs with
       | (.error e, r1) => (.error e, r1)
       | (.ok cs1, r1) =>
         match Register.AddCards r1 ys with
         | (.error e, r2) => (.error e, r2)
         | (.ok cs2, r2) => (.ok (cs1 ++ cs2), r2)) := by
  induction xs with
  | nil =>
    intro r
    simp only [List.nil_append, Register.AddCards]
    cases h : Register.AddCards r ys with
    | mk res r2 => cases res <;> simp
  | cons c rest ih =>
    intro r
    simp only [List.cons_append, Register.AddCards]
    cases hc : Register.AddCard r c with
    | mk res rc =>
      cases res with
      | error e => simp
      | ok card =>
        dsimp only
        rw [List.append_eq, ih rc]
        cases hrest : Register.AddCards rc rest with
        | mk res2 r3 =>
          cases res2 with
          | error e => simp
          | ok cs =>
            dsimp only
            cases hys : Register.AddCards r3 ys with
            | mk res3 r4 => cases res3 <;> simp

/-- A failure on a prefix is a failure on the whole list. -/
theorem AddCards_append_err1 (xs ys : List Code) (r : Register) (e : ImportErr)
    (h : (Register.AddCards r xs).1 = .error e) :
    (Register.AddCards r (xs ++ ys)).1 = .error e := by
  rw [AddCards_append]
  cases hx : Register.AddCards r xs with
  | mk res r1 =>
    rw [hx] at h
    cases res with
    | error e2 =>
      have he : (Except.error e2 : Except ImportErr (List Card)) = .error e := h
      cases he
      rfl
    | ok cs => exact Except.noConfusion h

/-- A success on a prefix followed by a failure on the rest is a failure on
the whole list. -/
theorem AddCards_append_err2 (xs ys : List Code) (r r1 : Register) (cs1 : List Card)
    (e : ImportErr)
    (hx : Register.AddCards r xs = (.ok cs1, r1))
    (hy : (Register.AddCards r1 ys).1 = .error e) :
    (Register.AddCards r (xs ++ ys)).1 = .error e := by
  cases hys : Register.AddCards r1 ys with
  | mk res r3 =>
    rw [hys] at hy
    cases res with
    | error e2 =>
      have he : (Except.error e2 : Except ImportErr (List Card)) = .error e := hy
      cases he
      rw [AddCards_append, hx]
      dsimp only
      rw [hys]
    | ok cs => exact Except.noConfusion hy

/-- Successes compose across a concatenation. -/
theorem AddCards_append_ok (xs ys : List Code) (r r1 r2 : Register)
    (cs1 cs2 : List Card)
    (hx : Register.AddCards r xs = (.ok cs1, r1))
    (hy : Register.AddCards r1 ys = (.ok cs2, r2)) :
    Register.AddCards r (xs ++ ys) = (.ok (cs1 ++ cs2), r2) := by
  rw [AddCards_append, hx]
  dsimp only
  rw [hy]

/-- A success on a concatenation splits into successes on the halves. -/
theorem AddCards_append_inv (xs ys : List Code) (r r2 : Register) (cs : List Card)
    (h : Register.AddCards r (xs ++ ys) = (.ok cs, r2)) :
    ∃ cs1 r1 cs2,
      Register.AddCards r xs = (.ok cs1, r1) ∧
      Register.AddCards r1 ys = (.ok cs2, r2) ∧ cs = cs1 ++ cs2 := by
  rw [AddCards_append] at h
  cases hx : Register.AddCards r xs with
  | mk res r1 =>
    rw [hx] at h
    cases res with
    | error e => exact Except.noConfusion (congrArg Prod.fst h)
    | ok cs1 =>
      dsimp only at h
      cases hys : Register.AddCards r1 ys with
      | mk res2 r3 =>
        rw [hys] at h
        cases res2 with
        | error e => exact Except.noConfusion (congrArg Prod.fst h)
        | ok cs2 =>
          injection h with h1 h2
          injection h1 with h3
          subst h2
          exact ⟨cs1, r1, cs2, rfl, hys, h3.symm⟩

/-- When the lengths agree, every per-stack facedown check passes, and
registering all stacked codes in sequence succeeds, the tableau loop
succeeds, finishing with the same register and with the facedown sum added
to the running total. -/
theorem tableauLoop_of_ok (stks : List (List Code)) :
    ∀ (fds : List Int) (r : Register) (g : Game) (i : Nat) (fdT : Int)
      (cs : List Card) (r2 : Register),
    fds.length = stks.length →
    fdChecksOk stks fds = true →
    Register.AddCards r stks.flatten = (.ok cs, r2) →
    ∃ g2, importTableauLoop r g stks fds i fdT = (.ok (), r2, g2, fdT + fds.sum) := by
  induction stks with
  | nil =>
    intro fds r g i fdT cs r2 hlen _ hreg
    have hfds : fds = [] := List.eq_nil_of_length_eq_zero hlen
    subst hfds
    have hreg2 : ((Except.ok [] : Except ImportErr (List Card)), r) = (Except.ok cs, r2) := hreg
    injection hreg2 with hA hB
    subst hB
    refine ⟨g, ?_⟩
    simp [importTableauLoop]
  | cons codes restS ih =>
    intro fds r g i fdT cs r2 hlen hchk hreg
    cases fds with
    | nil => simp at hlen
    | cons fd restF =>
      simp only [fdChecksOk, Bool.and_eq_true, decide_eq_true_eq] at hchk
      obtain ⟨h1, h2⟩ := hchk
      rw [List.flatten_cons] at hreg
      obtain ⟨cs1, rm, cs2, hA, hB, hcs⟩ :=
        AddCards_append_inv codes restS.flatten r r2 cs hreg
      obtain ⟨g2, hloop⟩ := ih restF rm
        { g with Tableau :=
          { Stacks := g.Tableau.Stacks.set i cs1
          , Facedown := g.Tableau.Facedown.set i fd } }
        (i + 1) (fdT + fd) cs2 r2 (by simpa using hlen) h2 hB
      refine ⟨g2, ?_⟩
      rw [importTableauLoop]
      dsimp only
      rw [if_neg (not_le.mpr h1), hA]
      dsimp only
      have hsum : fdT + (fd :: restF).sum = (fdT + fd) + restF.sum := by
        rw [List.sum_cons]
        ring
      rw [hsum]
      exact hloop

/-- A successful tableau loop registered exactly the flattened stacks. -/
theorem tableauLoop_ok_addCards (stks : List (List Code)) :
    ∀ (fds : List Int) (r : Register) (g : Game) (i : Nat) (fdT : Int)
      (r2 : Register) (g2 : Game) (fdT2 : Int),
    fds.length = stks.length →
    importTableauLoop r g stks fds i fdT = (.ok (), r2, g2, fdT2) →
    ∃ cs, Register.AddCards r stks.flatten = (.ok cs, r2) := by
  induction stks with
  | nil =>
    intro fds r g i fdT r2 g2 fdT2 _ h
    have hr : r = r2 := congrArg (fun t => t.2.1) h
    subst hr
    exact ⟨[], rfl⟩
  | cons codes restS ih =>
    intro fds r g i fdT r2 g2 fdT2 hlen h
    cases fds with
    | nil => simp at hlen
    | cons fd restF =>
      rw [importTableauLoop] at h
      dsimp only at h
      by_cases hif : (codes.length : Int) ≤ fd
      · rw [if_pos hif] at h
        exact Except.noConfusion (congrArg (fun t => t.1) h)
      · rw [if_neg hif] at h
        cases hA : Register.AddCards r codes with
        | mk res rc =>
          rw [hA] at h
          cases res with
          | error e =>
            exact Except.noConfusion (congrArg (fun t => t.1) h)
          | ok cs1 =>
            dsimp only at h
            obtain ⟨cs2, hB⟩ := ih restF rc _ (i + 1) (fdT + fd) r2 g2 fdT2 (by simpa using hlen) h
            rw [List.flatten_cons]
            exact ⟨cs1 ++ cs2, AddCards_append_ok codes restS.flatten r rc r2 cs1 cs2 hA hB⟩

/-- If the tableau loop fails with `DuplicateCardError`, registering the
flattened stacks from the same register fails with it too (the loop's other
failure modes are not duplicates, and the facedown checks cannot raise
one). -/
theorem tableauLoop_err_dup (stks : List (List Code)) :
    ∀ (fds : List Int) (r : Register) (g : Game) (i : Nat) (fdT : Int),
    (importTableauLoop r g stks fds i fdT).1 = .error .duplicate →
    (Register.AddCards r stks.flatten).1 = .error .duplicate := by
  induction stks with
  | nil =>
    intro fds r g i fdT h
    exact Except.noConfusion h
  | cons codes restS ih =>
    intro fds r g i fdT h
    cases fds with
    | nil => exact Except.noConfusion h
    | cons fd restF =>
      rw [importTableauLoop] at h
      dsimp only at h
      by_cases hif : (codes.length : Int) ≤ fd
      · rw [if_pos hif] at h
        exact ImportErr.noConfusion (Except.error.inj h)
      · rw [if_neg hif] at h
        cases hA : Register.AddCards r codes with
        | mk res rc =>
          rw [hA] at h
          cases res with
          | error e =>
            have he : e = ImportErr.duplicate := Except.error.inj h
            subst he
            rw [List.flatten_cons]
            apply AddCards_append_err1
            rw [hA]
          | ok cs1 =>
            dsimp only at h
            have hrest := ih restF rc _ (i + 1) (fdT + fd) h
            rw [List.flatten_cons]
            exact AddCards_append_err2 codes restS.flatten r rc cs1 ImportErr.duplicate hA hrest

/-- A successful foundation fill registered exactly its codes. -/
theorem foundationStack_ok_addCards (codes : List Code) :
    ∀ (r : Register) (suit : CardSuit) (key : String) (i : Nat)
      (stack : List Card) (r2 : Register),
    foundationStack r codes suit key i = (.ok stack, r2) →
    Register.AddCards r codes = (.ok stack, r2) := by
  induction codes with
  | nil =>
    intro r suit key i stack r2 h
    exact h
  | cons code rest ih =>
    intro r suit key i stack r2 h
    rw [foundationStack] at h
    cases hc : Register.AddCard r code with
    | mk res rc =>
      rw [hc] at h
      cases res with
      | error e => exact Except.noConfusion (congrArg (fun t => t.1) h)
      | ok card =>
        dsimp only at h
        by_cases hsuit : card.Suit = suit
        · rw [if_pos hsuit] at h
          cases hrest : foundationStack rc rest suit key (i + 1) with
          | mk res2 r3 =>
            rw [hrest] at h
            cases res2 with
            | error e => exact Except.noConfusion (congrArg (fun t => t.1) h)
            | ok stack2 =>
              injection h with h1 h2
              injection h1 with h1c
              subst h2
              have hB := ih rc suit key (i + 1) stack2 r3 hrest
              simp only [Register.AddCards, hc, hB]
              rw [h1c]
        · rw [if_neg hsuit] at h
          exact Except.noConfusion (congrArg (fun t => t.1) h)
  
/-- If a foundation fill fails with `DuplicateCardError`, registering its
codes fails with it too. -/
theorem foundationStack_err_dup (codes : List Code) :
    ∀ (r : Register) (suit : CardSuit) (key : String) (i : Nat),
    (foundationStack r codes suit key i).1 = .error .duplicate →
    (Register.AddCards r codes).1 = .error .duplicate := by
  induction codes with
  | nil =>
    intro r suit key i h
    exact Except.noConfusion h
  | cons code rest ih =>
    intro r suit key i h
    rw [foundationStack] at h
    cases hc : Register.AddCard r code with
    | mk res rc =>
      rw [hc] at h
      cases res with
      | error e =>
        have he : e = ImportErr.duplicate := Except.error.inj h
        subst he
        simp only [Register.AddCards, hc]
      | ok card =>
        dsimp only at h
        by_cases hsuit : card.Suit = suit
        · rw [if_pos hsuit] at h
          cases hrest : foundationStack rc rest suit key (i + 1) with
          | mk res2 r3 =>
            rw [hrest] at h
            cases res2 with
            | error e =>
              have he : e = ImportErr.duplicate := Except.error.inj h
              subst he
              have hr := ih rc suit key (i + 1) (by rw [hrest])
              simp only [Register.AddCards, hc]
              cases hrr : Register.AddCards rc rest with
              | mk res3 r4 =>
                rw [hrr] at hr
                cases res3 with
                | error e2 =>
                  have he2 : e2 = ImportErr.duplicate := Except.error.inj hr
                  subst he2
                  rfl
                | ok cs => exact Except.noConfusion hr
            | ok stack2 => exact Except.noConfusion h
        · rw [if_neg hsuit] at h
          exact ImportErr.noConfusion (Except.error.inj h)

/-- A successful foundations walk registered exactly the flattened piles in
iteration order. -/
theorem importFoundations_ok_addCards (fs : List (String × List Code)) :
    ∀ (r : Register) (g : Game) (r2 : Register) (g2 : Game),
    importFoundations r g fs = (.ok (), r2, g2) →
    ∃ cs, Register.AddCards r (fs.map Prod.snd).flatten = (.ok cs, r2) := by
  induction fs with
  | nil =>
    intro r g r2 g2 h
    have hr : r = r2 := congrArg (fun t => t.2.1) h
    subst hr
    exact ⟨[], rfl⟩
  | cons kv rest ih =>
    intro r g r2 g2 h
    rw [importFoundations] at h
    cases hkey : suitOfKey kv.1 with
    | none =>
      rw [hkey] at h
      exact Except.noConfusion (congrArg (fun t => t.1) h)
    | some suit =>
      rw [hkey] at h
      dsimp only at h
      cases hstk : foundationStack r kv.2 suit kv.1 0 with
      | mk res rA =>
        rw [hstk] at h
        cases res with
        | error e => exact Except.noConfusion (congrArg (fun t => t.1) h)
        | ok stack =>
          dsimp only at h
          obtain ⟨cs2, hB⟩ := ih rA _ r2 g2 h
          have hA := foundationStack_ok_addCards kv.2 r suit kv.1 0 stack rA hstk
          rw [List.map_cons, List.flatten_cons]
          exact ⟨stack ++ cs2, AddCards_append_ok kv.2 (rest.map Prod.snd).flatten r rA r2 stack cs2 hA hB⟩

/-- If the foundations walk fails with `DuplicateCardError`, registering the
flattened piles from the same register fails with it too. -/
theorem importFoundations_err_dup (fs : List (String × List Code)) :
    ∀ (r : Register) (g : Game),
    (importFoundations r g fs).1 = .error .duplicate →
    (Register.AddCards r (fs.map Prod.snd).flatten).1 = .error .duplicate := by
  induction fs with
  | nil =>
    intro r g h
    exact Except.noConfusion h
  | cons kv rest ih =>
    intro r g h
    rw [importFoundations] at h
    cases hkey : suitOfKey kv.1 with
    | none =>
      rw [hkey] at h
      exact ImportErr.noConfusion (Except.error.inj h)
    | some suit =>
      rw [hkey] at h
      dsimp only at h
      cases hstk : foundationStack r kv.2 suit kv.1 0 with
      | mk res rA =>
        rw [hstk] at h
        cases res with
        | error e =>
          have he : e = ImportErr.duplicate := Except.error.inj h
          subst he
          have hA := foundationStack_err_dup kv.2 r suit kv.1 0 (by rw [hstk])
          rw [List.map_cons, List.flatten_cons]
          exact AddCards_append_err1 kv.2 (rest.map Prod.snd).flatten r ImportErr.duplicate hA
        | ok stack =>
          dsimp only at h
          have hB := ih rA _ h
          have hA := foundationStack_ok_addCards kv.2 r suit kv.1 0 stack rA hstk
          rw [List.map_cons, List.flatten_cons]
          exact AddCards_append_err2 kv.2 (rest.map Prod.snd).flatten r rA stack ImportErr.duplicate hA hB

/-- A successful import registered exactly the document's codes, in
document order. -/
theorem Import_ok_addCards (g : Game) (save : SaveData)
    (h : (Game.Import g save).1 = .ok ()) :
    ∃ cs r2, Register.AddCards NewRegister (allCodes save) = (.ok cs, r2) := by
  unfold Game.Import at h
  try dsimp only at h
  split at h
  next e rdead heq =>
    exact Except.noConfusion h
  next stockCards r1 hstk =>
    try dsimp only at h
    split at h
    next h7 => exact Except.noConfusion h
    next h7 =>
      split at h
      next hne => exact Except.noConfusion h
      next hne =>
        have hlen : save.Tableau.Facedown.length = save.Tableau.Stacks.length := not_not.mp hne
        split at h
        next e x1 x2 x3 hloop => exact Except.noConfusion h
        next u r2 g2 fdT hloop =>
          try dsimp only at h
          split at h
          next hfd => exact Except.noConfusion h
          next hfd =>
            split at h
            next e x4 x5 hfnd => exact Except.noConfusion h
            next u2 r3 g3 hfnd =>
              try dsimp only at h
              split at h
              next hT => exact Except.noConfusion h
              next hT =>
                cases u
                cases u2
                obtain ⟨cs2, hB⟩ :=
                  tableauLoop_ok_addCards save.Tableau.Stacks save.Tableau.Facedown r1 _ 0 0 r2 g2 fdT hlen hloop
                obtain ⟨cs3, hC⟩ := importFoundations_ok_addCards save.Foundations r2 g2 r3 g3 hfnd
                have h1 := AddCards_append_ok save.Stock.Stack save.Tableau.Stacks.flatten
                  NewRegister r1 r2 stockCards cs2 hstk hB
                have h2 := AddCards_append_ok (save.Stock.Stack ++ save.Tableau.Stacks.flatten)
                  ((save.Foundations.map Prod.snd).flatten) NewRegister r2 r3 (stockCards ++ cs2) cs3 h1 hC
                unfold allCodes
                exact ⟨(stockCards ++ cs2) ++ cs3, r3, h2⟩

/-- An import that fails with `DuplicateCardError` would also fail with it
when registering the document's codes in document order on a fresh
register. -/
theorem Import_dup_addCards (g : Game) (save : SaveData)
    (h : (Game.Import g save).1 = .error .duplicate) :
    (Register.AddCards NewRegister (allCodes save)).1 = .error .duplicate := by
  unfold Game.Import at h
  try dsimp only at h
  unfold allCodes
  split at h
  next e rdead hstk =>
    have he : e = ImportErr.duplicate := Except.error.inj h
    subst he
    apply AddCards_append_err1
    apply AddCards_append_err1
    rw [hstk]
  next stockCards r1 hstk =>
    try dsimp only at h
    split at h
    next h7 => exact ImportErr.noConfusion (Except.error.inj h)
    next h7 =>
      split at h
      next hne => exact ImportErr.noConfusion (Except.error.inj h)
      next hne =>
        have hlen : save.Tableau.Facedown.length = save.Tableau.Stacks.length := not_not.mp hne
        split at h
        next e x1 x2 x3 hloop =>
          have he : e = ImportErr.duplicate := Except.error.inj h
          subst he
          have hdup := tableauLoop_err_dup save.Tableau.Stacks save.Tableau.Facedown r1 _ 0 0 (by rw [hloop])
          apply AddCards_append_err1
          exact AddCards_append_err2 save.Stock.Stack save.Tableau.Stacks.flatten
            NewRegister r1 stockCards ImportErr.duplicate hstk hdup
        next u r2 g2 fdT hloop =>
          try dsimp only at h
          split at h
          next hfd => exact ImportErr.noConfusion (Except.error.inj h)
          next hfd =>
            split at h
            next e x4 x5 hfnd =>
              have he : e = ImportErr.duplicate := Except.error.inj h
              subst he
              cases u
              obtain ⟨cs2, hB⟩ :=
                tableauLoop_ok_addCards save.Tableau.Stacks save.Tableau.Facedown r1 _ 0 0 r2 g2 fdT hlen hloop
              have hdup := importFoundations_err_dup save.Foundations r2 g2 (by rw [hfnd])
              have h1 := AddCards_append_ok save.Stock.Stack save.Tableau.Stacks.flatten
                NewRegister r1 r2 stockCards cs2 hstk hB
              exact AddCards_append_err2 (save.Stock.Stack ++ save.Tableau.Stacks.flatten)
                ((save.Foundations.map Prod.snd).flatten) NewRegister r2 (stockCards ++ cs2)
                ImportErr.duplicate h1 hdup
            next u2 r3 g3 hfnd =>
              try dsimp only at h
              split at h
              next hT => exact ImportErr.noConfusion (Except.error.inj h)
              next hT => exact Except.noConfusion h

/-- A successful `AddCard` extends the seen set by exactly the code's
non-wildcard identity (if any), which was fresh before the call. -/
theorem addCard_ok_spec (r : Register) (code : Code) (card : Card) (r2 : Register)
    (h : Register.AddCard r code = (.ok card, r2)) :
    r2.Cards = (match nonwildId code with
                | some id => id :: r.Cards
                | none => r.Cards) ∧
    (∀ id, nonwildId code = some id → id ∉ r.Cards) := by
  cases hp : ParseCard code with
  | error e =>
    rw [AddCard_parse_err r code e hp] at h
    exact Except.noConfusion (congrArg (fun t => t.1) h)
  | ok c =>
    cases hw : containsWildcard c.Id with
    | true =>
      rw [AddCard_wild r code c hp hw] at h
      have hni : nonwildId code = none := by simp [nonwildId, hp, hw]
      rw [hni]
      refine ⟨?_, ?_⟩
      · have hsnd : (addCardCounts r c).2 = r2 := congrArg (fun t => t.2) h
        rw [← hsnd, addCardCounts_snd_Cards]
      · intro id hid
        exact Option.noConfusion hid
    | false =>
      by_cases hm : c.Id ∈ r.Cards
      · rw [AddCard_dup_of_mem r code c hp hw hm] at h
        exact Except.noConfusion (congrArg (fun t => t.1) h)
      · rw [AddCard_insert r code c hp hw hm] at h
        have hni : nonwildId code = some c.Id := by simp [nonwildId, hp, hw]
        rw [hni]
        refine ⟨?_, ?_⟩
        · have hsnd : (addCardCounts { r with Cards := c.Id :: r.Cards } c).2 = r2 :=
            congrArg (fun t => t.2) h
          rw [← hsnd, addCardCounts_snd_Cards]
        · intro id hid
          injection hid with he
          rw [← he]
          exact hm

/-- A `DuplicateCardError` from `AddCard` names a non-wildcard identity that
was already seen. -/
theorem addCard_dup_spec (r : Register) (code : Code) (r2 : Register)
    (h : Register.AddCard r code = (.error .duplicate, r2)) :
    ∃ id, nonwildId code = some id ∧ id ∈ r.Cards := by
  cases hp : ParseCard code with
  | error e =>
    rw [AddCard_parse_err r code e hp] at h
    exact ImportErr.noConfusion (Except.error.inj (congrArg (fun t => t.1) h))
  | ok c =>
    cases hw : containsWildcard c.Id with
    | true =>
      rw [AddCard_wild r code c hp hw] at h
      rcases addCardCounts_fst r c with hok | ⟨msgs, herr⟩
      · exact Except.noConfusion (hok.symm.trans (congrArg (fun t => t.1) h))
      · exact ImportErr.noConfusion (Except.error.inj (herr.symm.trans (congrArg (fun t => t.1) h)))
    | false =>
      by_cases hm : c.Id ∈ r.Cards
      · exact ⟨c.Id, by simp [nonwildId, hp, hw], hm⟩
      · rw [AddCard_insert r code c hp hw hm] at h
        rcases addCardCounts_fst { r with Cards := c.Id :: r.Cards } c with hok | ⟨msgs, herr⟩
        · exact Except.noConfusion (hok.symm.trans (congrArg (fun t => t.1) h))
        · exact ImportErr.noConfusion (Except.error.inj (herr.symm.trans (congrArg (fun t => t.1) h)))

/-- A successful `AddCards` run: the final seen set stacks the codes'
non-wildcard identities over the initial one, those identities are pairwise
distinct, and none of them was seen before the call. -/
theorem addCards_ok_spec (codes : List Code) :
    ∀ (r : Register) (cs : List Card) (r2 : Register),
    Register.AddCards r codes = (.ok cs, r2) →
    r2.Cards = (nwIds codes).reverse ++ r.Cards ∧
    (nwIds codes).Nodup ∧
    ∀ id ∈ nwIds codes, id ∉ r.Cards := by
  induction codes with
  | nil =>
    intro r cs r2 h
    have hr : r = r2 := congrArg (fun t => t.2) h
    subst hr
    simp [nwIds]
  | cons code rest ih =>
    intro r cs r2 h
    simp only [Register.AddCards] at h
    cases hc : Register.AddCard r code with
    | mk res rc =>
      rw [hc] at h
      cases res with
      | error e => exact Except.noConfusion (congrArg (fun t => t.1) h)
      | ok card =>
        dsimp only at h
        cases hrest : Register.AddCards rc rest with
        | mk res2 r3 =>
          rw [hrest] at h
          cases res2 with
          | error e => exact Except.noConfusion (congrArg (fun t => t.1) h)
          | ok cs2 =>
            have hr3 : r3 = r2 := congrArg (fun t => t.2) h
            subst hr3
            obtain ⟨ha, hb⟩ := addCard_ok_spec r code card rc hc
            obtain ⟨ih1, ih2, ih3⟩ := ih rc cs2 r3 hrest
            cases hni : nonwildId code with
            | none =>
              rw [hni] at ha
              have hnw : nwIds (code :: rest) = nwIds rest := by
                simp [nwIds, List.filterMap_cons, hni]
              rw [hnw]
              refine ⟨?_, ih2, ?_⟩
              · rw [ih1, ha]
              · intro id hid
                have hrc := ih3 id hid
                rw [ha] at hrc
                exact hrc
            | some idc =>
              rw [hni] at ha
              have hfresh := hb idc hni
              have hnw : nwIds (code :: rest) = idc :: nwIds rest := by
                simp [nwIds, List.filterMap_cons, hni]
              rw [hnw]
              refine ⟨?_, ?_, ?_⟩
              · rw [ih1, ha]
                simp
              · rw [List.nodup_cons]
                refine ⟨?_, ih2⟩
                intro hmem
                have hrc := ih3 idc hmem
                rw [ha] at hrc
                exact hrc (List.mem_cons_self _ _)
              · intro id hid
                rcases List.mem_cons.mp hid with hEq | hmem
                · rw [hEq]
                  exact hfresh
                · have hrc := ih3 id hmem
                  rw [ha] at hrc
                  exact fun hr => hrc (List.mem_cons_of_mem _ hr)

/-- If `AddCards` fails with `DuplicateCardError`, then the codes' non-wild
identities are either not pairwise distinct or not disjoint from the
identities already seen. -/
theorem addCards_dup_spec (codes : List Code) :
    ∀ r : Register,
    (Register.AddCards r codes).1 = .error .duplicate →
    ¬ ((nwIds codes).Nodup ∧ ∀ id ∈ nwIds codes, id ∉ r.Cards) := by
  induction codes with
  | nil =>
    intro r h
    exact Except.noConfusion h
  | cons code rest ih =>
    intro r h
    simp only [Register.AddCards] at h
    cases hc : Register.AddCard r code with
    | mk res rc =>
      rw [hc] at h
      cases res with
      | error e =>
        have he : e = ImportErr.duplicate := Except.error.inj h
        subst he
        obtain ⟨id, hni, hmem⟩ := addCard_dup_spec r code rc hc
        rintro ⟨hnd, hfr⟩
        have hidmem : id ∈ nwIds (code :: rest) := by
          simp [nwIds, List.filterMap_cons, hni]
        exact hfr id hidmem hmem
      | ok card =>
        dsimp only at h
        cases hrest : Register.AddCards rc rest with
        | mk res2 r3 =>
          rw [hrest] at h
          cases res2 with
          | error e =>
            have he : e = ImportErr.duplicate := Except.error.inj h
            subst he
            have hdup := ih rc (by rw [hrest])
            obtain ⟨ha, hb⟩ := addCard_ok_spec r code card rc hc
            rintro ⟨hnd, hfr⟩
            apply hdup
            cases hni : nonwildId code with
            | none =>
              rw [hni] at ha
              have hnw : nwIds (code :: rest) = nwIds rest := by
                simp [nwIds, List.filterMap_cons, hni]
              rw [hnw] at hnd hfr
              refine ⟨hnd, ?_⟩
              intro id hid
              rw [ha]
              exact hfr id hid
            | some idc =>
              rw [hni] at ha
              have hnw : nwIds (code :: rest) = idc :: nwIds rest := by
                simp [nwIds, List.filterMap_cons, hni]
              rw [hnw] at hnd hfr
              have hnd2 := List.nodup_cons.mp hnd
              refine ⟨hnd2.2, ?_⟩
              intro id hid
              rw [ha]
              intro hmem2
              rcases List.mem_cons.mp hmem2 with hEq | hmem3
              · exact hnd2.1 (hEq ▸ hid)
              · exact hfr id (List.mem_cons_of_mem _ hid) hmem3
          | ok cs2 => exact Except.noConfusion h

/-- Each occurrence of a non-wildcard code contributes its identity to the
identity multiset of a code list. -/
theorem count_le_count_nwIds (code : Code) (id : String)
    (h : nonwildId code = some id) :
    ∀ l : List Code, l.count code ≤ (nwIds l).count id := by
  intro l
  induction l with
  | nil => simp [nwIds]
  | cons d rest ih =>
    rw [List.count_cons]
    cases hni : nonwildId d with
    | none =>
      have hnw : nwIds (d :: rest) = nwIds rest := by
        simp [nwIds, List.filterMap_cons, hni]
      rw [hnw]
      have hne : (d == code) = false := by
        apply beq_eq_false_iff_ne.mpr
        intro hEq
        rw [← hEq, hni] at h
        exact Option.noConfusion h
      rw [hne]
      simpa using ih
    | some j =>
      have hnw : nwIds (d :: rest) = j :: nwIds rest := by
        simp [nwIds, List.filterMap_cons, hni]
      rw [hnw, List.count_cons]
      by_cases hcd : code = d
      · subst hcd
        have hj : j = id := by
          have hji := hni.symm.trans h
          injection hji
        subst hj
        simp only [beq_self_eq_true, if_true]
        exact Nat.add_le_add_right ih 1
      · have hne : (d == code) = false := by
          apply beq_eq_false_iff_ne.mpr
          exact fun hEq => hcd hEq.symm
        rw [hne]
        simp only [Bool.false_eq_true, if_false]
        exact le_trans ih (Nat.le_add_right _ _)

/-- A successful import saw pairwise-distinct non-wildcard identities. -/
theorem Import_ok_nodup (g : Game) (save : SaveData)
    (h : (Game.Import g save).1 = .ok ()) :
    (nwIds (allCodes save)).Nodup := by
  obtain ⟨cs, r2, hreg⟩ := Import_ok_addCards g save h
  exact (addCards_ok_spec (allCodes save) NewRegister cs r2 hreg).2.1

/-- C6 (amended): if any non-wildcard code occurs twice anywhere in the
document (stock, tableau or foundations), `Import` cannot succeed — it
fails, with `DuplicateCardError` exactly when no earlier error preempts the
second occurrence; conversely, a document whose non-wildcard identities are
pairwise distinct (wildcard codes may repeat arbitrarily) never fails with
`DuplicateCardError`. -/
theorem impatience_C6 (g : Game) (save : SaveData) :
    ((∃ code id, nonwildId code = some id ∧ 2 ≤ (allCodes save).count code) →
      (Game.Import g save).1 ≠ .ok ()) ∧
    ((nwIds (allCodes save)).Nodup → (Game.Import g save).1 ≠ .error .duplicate) := by
  constructor
  · rintro ⟨code, id, hni, hcnt⟩ hok
    have hnd := Import_ok_nodup g save hok
    have hle := count_le_count_nwIds code id hni (allCodes save)
    have h1 := List.nodup_iff_count_le_one.mp hnd id
    omega
  · intro hnd hdup
    have h2 := Import_dup_addCards g save hdup
    have h3 := addCards_dup_spec (allCodes save) NewRegister h2
    refine h3 ⟨hnd, ?_⟩
    intro id hid
    simp [NewRegister]

theorem impatience_C6_witness :
    (Game.Import emptyGame c6stockDoc).1 ≠ .ok () :=
  (impatience_C6 emptyGame c6stockDoc).1 ⟨stdCode .SPADES .ACE, "s1", by decide, by decide⟩

/-- C7 (amended): when additionally the stock registration and the
registration of every tableau stack succeed, a tableau that passes the
per-stack checks but whose facedown counts sum over 21 makes `Import` fail
with the facedown-overflow `StructuralError` — and the failure is raised
only after the tableau loop has registered every stack's cards (the loop
completes successfully, ending in the register that absorbed all stacked
codes). -/
theorem impatience_C7 (g : Game) (save : SaveData) (cs cs2 : List Card)
    (r1 r2 : Register)
    (hstock : Register.AddCards NewRegister save.Stock.Stack = (.ok cs, r1))
    (hsz : save.Tableau.Stacks.length ≤ 7)
    (hlen : save.Tableau.Facedown.length = save.Tableau.Stacks.length)
    (hchk : fdChecksOk save.Tableau.Stacks save.Tableau.Facedown = true)
    (hreg : Register.AddCards r1 save.Tableau.Stacks.flatten = (.ok cs2, r2))
    (hsum : 21 < save.Tableau.Facedown.sum) :
    (Game.Import g save).1 = .error (.facedownOverflow save.Tableau.Facedown.sum) ∧
    ∀ g0 : Game, ∃ g2,
      importTableauLoop r1 g0 save.Tableau.Stacks save.Tableau.Facedown 0 0 =
        (.ok (), r2, g2, save.Tableau.Facedown.sum) := by
  have hloopAll : ∀ g0 : Game, ∃ g2,
      importTableauLoop r1 g0 save.Tableau.Stacks save.Tableau.Facedown 0 0 =
        (.ok (), r2, g2, (0 : Int) + save.Tableau.Facedown.sum) :=
    fun g0 => tableauLoop_of_ok save.Tableau.Stacks save.Tableau.Facedown r1 g0 0 0 cs2 r2
      hlen hchk hreg
  constructor
  · unfold Game.Import
    dsimp only
    rw [hstock]
    dsimp only
    rw [if_neg (not_lt.mpr hsz), if_neg (not_not_intro hlen)]
    obtain ⟨g2, hl⟩ := hloopAll _
    rw [zero_add] at hl
    rw [hl]
    dsimp only
    rw [if_pos hsum]
  · intro g0
    obtain ⟨g2, hl⟩ := hloopAll g0
    rw [zero_add] at hl
    exact ⟨g2, hl⟩

theorem impatience_C7_witness :
    (Game.Import emptyGame c7cleanDoc).1 = .error (.facedownOverflow 24) := by
  have h := impatience_C7 emptyGame c7cleanDoc [] (okCards c7regRes.1) NewRegister c7regRes.2
    rfl (by decide) (by decide) (by decide) (by decide) (by decide)
  rw [h.1]
  decide

/-- C9: when the stock, tableau (shape checks, loop and facedown limit) and
foundations phases all succeed, `Import` succeeds exactly when the final
register total is 52, and otherwise fails with `IncompleteDeckError`
reporting the actual total. -/
theorem impatience_C9 (g : Game) (save : SaveData) (cs : List Card)
    (r1 r2 r3 : Register) (fdT : Int)
    (hstock : Register.AddCards NewRegister save.Stock.Stack = (.ok cs, r1))
    (hsz : save.Tableau.Stacks.length ≤ 7)
    (hlen : save.Tableau.Facedown.length = save.Tableau.Stacks.length)
    (hloop : ∀ g0 : Game, ∃ g2,
      importTableauLoop r1 g0 save.Tableau.Stacks save.Tableau.Facedown 0 0 =
        (.ok (), r2, g2, fdT))
    (hfd : fdT ≤ 21)
    (hfnd : ∀ g0 : Game, ∃ g2,
      importFoundations r2 g0 save.Foundations = (.ok (), r3, g2)) :
    (Game.Import g save).1 =
      (if r3.Total = 52 then .ok () else .error (.incompleteDeck r3.Total)) := by
  unfold Game.Import
  dsimp only
  rw [hstock]
  dsimp only
  rw [if_neg (not_lt.mpr hsz), if_neg (not_not_intro hlen)]
  obtain ⟨g2, hl⟩ := hloop _
  rw [hl]
  dsimp only
  rw [if_neg (not_lt.mpr hfd)]
  obtain ⟨g3, hf⟩ := hfnd g2
  rw [hf]
  dsimp only
  by_cases hT : r3.Total = 52
  · rw [if_neg (not_not_intro hT), if_pos hT]
  · rw [if_pos hT, if_neg hT]

theorem impatience_C9_witness :
    (Game.Import emptyGame c9doc).1 = .error (.incompleteDeck 51) := by
  have h := impatience_C9 emptyGame c9doc (okCards c9stockRes.1) c9stockRes.2 c9stockRes.2
    c9stockRes.2 0
    (by decide) (by decide) (by decide)
    (fun g0 => ⟨g0, rfl⟩) (by decide) (fun g0 => ⟨g0, rfl⟩)
  rw [h]
  decide
